import Mathlib

/-
Verification of the objinspect metadata-extraction library.

The development shallowly embeds the relevant parts of the source:
  * objinspect/typing.py   — type-annotation taxonomy (unions, literals, enums)
  * objinspect/parameter.py — the Parameter model and its type inference
  * objinspect/method.py   — Method visibility predicates and MethodFilter
  * objinspect/function.py — Function parameter extraction and lookup
  * objinspect/_class.py   — Class lifecycle (init / call_method / get_method)

Python type annotations are modelled by the inductive `Ty`; runtime values
occurring in annotations (Literal arguments) and as parameter defaults by
`Val` and `Obj`.  Fallible Python operations (raised exceptions) are modelled
with `Except` / `Option`.
-/

namespace Objinspect

/-- Runtime values that can appear inside a `Literal[...]` annotation. -/
inductive Val where
  | vStr (s : String)
  | vInt (n : Int)
  | vBool (b : Bool)
  | vNone
deriving DecidableEq, Repr

/-- Shallow embedding of a Python type annotation as consumed by
objinspect/typing.py.  `union` covers both `typing.Union[...]` values and
`X | Y` values (the code treats both through `UNION_TYPES`).  `literal vs`
is a parametrized `Literal[...]`; `literalMarker` is the bare `Literal`
marker; `lit v` is a raw value appearing in type-argument position (what
`typing.get_args` returns for a `Literal`); `enum n ms` is an Enum class
with member names `ms`. -/
inductive Ty where
  | plain (name : String)
  | union (args : List Ty)
  | generic (origin : String) (args : List Ty)
  | literal (values : List Val)
  | literalMarker
  | enum (name : String) (members : List String)
  | lit (v : Val)
deriving Repr

/-- Embedding of `typing.get_args`: a union or parametrized generic yields its
argument tuple, a parametrized `Literal` yields its values (as raw objects),
and everything else yields the empty tuple. -/
def get_args : Ty → List Ty
  | .union args => args
  | .generic _ args => args
  | .literal vs => vs.map Ty.lit
  | _ => []

/-- Embedding of `is_union_type` (typing.py): `type(t) in UNION_TYPES`. -/
def is_union_type : Ty → Bool
  | .union _ => true
  | _ => false

/-- Embedding of `is_enum` (typing.py): `isinstance(t, EnumMeta)`. -/
def is_enum : Ty → Bool
  | .enum _ _ => true
  | _ => false

/-- Embedding of `is_direct_literal` (typing.py): true exactly for a
parametrized `Literal[...]`, not for the bare `Literal` marker and not for
anything else. -/
def is_direct_literal : Ty → Bool
  | .literal _ => true
  | _ => false

mutual
/-- Embedding of `_flatten_union_args` (typing.py): iterate over
`typing.get_args(t)`, recursing into arguments that are themselves unions and
appending every other argument as-is. -/
def _flatten_union_args : Ty → List Ty
  | .union args => flatten_args_loop args
  | .generic _ args => flatten_args_loop args
  | .literal vs => vs.map Ty.lit
  | _ => []

/-- The loop body of `_flatten_union_args`: recurse into union arguments,
append every other argument as-is. -/
def flatten_args_loop : List Ty → List Ty
  | [] => []
  | a :: rest =>
    (if is_union_type a then _flatten_union_args a else [a]) ++ flatten_args_loop rest
end

mutual
/-- Embedding of `is_or_contains_literal` (typing.py): direct literals
qualify, otherwise recurse through `typing.get_args`. -/
def is_or_contains_literal : Ty → Bool
  | .literal _ => true
  | .union args => contains_literal_any args
  | .generic _ args => contains_literal_any args
  | _ => false

/-- The recursion of `is_or_contains_literal` over an argument tuple. -/
def contains_literal_any : List Ty → Bool
  | [] => false
  | a :: rest => is_or_contains_literal a || contains_literal_any rest
end

/-- The scan inside `get_literal_choices`: return the values of the first
argument that is a direct literal, if any. -/
def first_direct_literal : List Ty → Option (List Val)
  | [] => none
  | .literal vs :: _ => some vs
  | _ :: rest => first_direct_literal rest

/-- Embedding of `get_literal_choices` (typing.py): a direct literal yields
its own values; otherwise the first direct-literal argument of `t` yields its
values; otherwise a `ValueError` is raised (modelled as `none`). -/
def get_literal_choices (t : Ty) : Option (List Val) :=
  match t with
  | .literal vs => some vs
  | _ => first_direct_literal (get_args t)

/-- Embedding of `get_enum_choices` (typing.py): member names of an Enum,
`TypeError` (modelled as `Except.error`) otherwise. -/
def get_enum_choices : Ty → Except String (List String)
  | .enum _ ms => .ok ms
  | _ => .error "not an Enum"

/-- The loop of the union branch of `get_choices` (typing.py): walk the union
arguments, extending the accumulator with enum member names for enum branches
and with literal choices for branches that are or contain a literal. -/
def union_choices_loop : List Ty → Except String (List Val)
  | [] => .ok []
  | i :: rest =>
    if is_enum i then
      match get_enum_choices i with
      | .ok ms =>
        match union_choices_loop rest with
        | .ok r => .ok (ms.map Val.vStr ++ r)
        | .error e => .error e
      | .error e => .error e
    else if is_or_contains_literal i then
      match get_literal_choices i with
      | some vs =>
        match union_choices_loop rest with
        | .ok r => .ok (vs ++ r)
        | .error e => .error e
      | none => .error "not a literal"
    else union_choices_loop rest

/-- Embedding of `get_choices` (typing.py).  `Except.error` models a raised
exception; `Except.ok none` models the Python `None` return. -/
def get_choices (t : Ty) : Except String (Option (List Val)) :=
  if is_or_contains_literal t then
    match get_literal_choices t with
    | some vs => .ok (some vs)
    | none => .error "not a literal"
  else if is_enum t then
    match get_enum_choices t with
    | .ok ms => .ok (some (ms.map Val.vStr))
    | .error e => .error e
  else if is_union_type t then
    match union_choices_loop (get_args t) with
    | .ok cs => .ok (some cs)
    | .error e => .error e
  else .ok none

/-- De-duplication keeping the first occurrence of each value, in order,
with an accumulator of already-seen values; used only by the spec-side
reference definition of `get_choices`. -/
def dedup_seen (seen : List Val) : List Val → List Val
  | [] => []
  | v :: vs => if seen.contains v then dedup_seen seen vs else v :: dedup_seen (v :: seen) vs

/-- De-duplication keeping the first occurrence of each value, in order. -/
def dedup_keep_first (l : List Val) : List Val :=
  dedup_seen [] l

/-- Spec-side reference: the choices contributed by one union branch that is
itself a literal or an enum (spec section 4.1: direct literal gives its
values, enum gives its member names, any other branch contributes nothing). -/
def spec_branch_choices : Ty → List Val
  | .literal vs => vs
  | .enum _ ms => ms.map Val.vStr
  | _ => []

/-- Reference definition of `get_choices` transcribed from the spec text:
direct literal yields its values; enum yields its member names; a union
yields the concatenation, in first-seen order and without duplicates, of the
choices of each branch that is itself a literal or enum; anything else yields
none. -/
def get_choices_spec : Ty → Option (List Val)
  | .literal vs => some vs
  | .enum _ ms => some (ms.map Val.vStr)
  | .union args => some (dedup_keep_first (List.flatten (args.map spec_branch_choices)))
  | _ => none

/-- Member names of an enum annotation, empty for anything else; used by the
amended reference definition of `get_choices`. -/
def enum_member_names : Ty → List String
  | .enum _ ms => ms
  | _ => []

/-- Amended reference definition of `get_choices`, describing what the code
computes: a direct literal yields its own values; any other annotation that
recursively contains a direct literal yields the values of its first
immediate argument that is a direct literal, and raises when no immediate
argument is one; an enum yields its member names; a union (necessarily free
of literals at this point) yields the concatenation, in branch order and with
duplicates kept, of the member names of its enum branches; anything else
yields none. -/
def get_choices_amended (t : Ty) : Except String (Option (List Val)) :=
  match t with
  | .literal vs => .ok (some vs)
  | t =>
    if is_or_contains_literal t then
      match first_direct_literal (get_args t) with
      | some vs => .ok (some vs)
      | none => .error "not a literal"
    else
      match t with
      | .enum _ ms => .ok (some (ms.map Val.vStr))
      | .union args =>
        .ok (some (List.flatten (args.map (fun b => (enum_member_names b).map Val.vStr))))
      | _ => .ok none

/-- Invariant of union values as CPython constructs them: `typing.Union[...]`
and `X | Y` flatten nested unions and drop duplicate branches at construction
time and never produce a one-branch union, so the argument tuple of any union
annotation has at least two members, none itself a union, and no duplicates. -/
def python_wf_union_args (args : List Ty) : Prop :=
  2 ≤ args.length ∧ (∀ a ∈ args, is_union_type a = false) ∧ args.Nodup

/-- Embedding of `inspect._ParameterKind` (the five Python parameter kinds). -/
inductive ParameterKind where
  | POSITIONAL_ONLY
  | POSITIONAL_OR_KEYWORD
  | VAR_POSITIONAL
  | KEYWORD_ONLY
  | VAR_KEYWORD
deriving DecidableEq, Repr

/-- Runtime Python objects as far as the Parameter model needs them: the
`inspect._empty` sentinel `EMPTY` (objinspect/constants.py), `None`,
primitive values, and type objects identified by name. -/
inductive Obj where
  | empty
  | pynone
  | int (n : Int)
  | str (s : String)
  | bool (b : Bool)
  | typeObj (name : String)
deriving DecidableEq, Repr

/-- The Python builtin `type` on the modelled objects: `type(None)` is
`NoneType`, `type(4)` is `int`, and every class object has type `type`
(`inspect._empty` is itself a class). -/
def type_of : Obj → Obj
  | .empty => .typeObj "type"
  | .pynone => .typeObj "NoneType"
  | .int _ => .typeObj "int"
  | .str _ => .typeObj "str"
  | .bool _ => .typeObj "bool"
  | .typeObj _ => .typeObj "type"

/-- The field content of a `Parameter` (objinspect/parameter.py): name, kind,
type annotation (or `EMPTY`), default (or `EMPTY`), description. -/
structure Parameter where
  name : String
  kind : ParameterKind
  type : Obj
  default : Obj
  description : Option String
deriving DecidableEq, Repr

/-- Embedding of `Parameter.is_typed`: `self.type is not EMPTY`. -/
def Parameter.is_typed (p : Parameter) : Bool :=
  p.type != Obj.empty

/-- Embedding of `Parameter.get_infered_type`: `EMPTY` when there is no
default, otherwise the runtime type of the default value. -/
def Parameter.get_infered_type (p : Parameter) : Obj :=
  if p.default == Obj.empty then Obj.empty else type_of p.default

/-- Embedding of `Parameter.__init__`: store the five fields, then, when
`infer_type` is set and no explicit annotation was given, replace the type
with the inferred one.  The inference runs exactly here, once, at
construction, and never re-runs. -/
def mk_parameter (name : String) (kind : ParameterKind) (annot : Obj)
    (default : Obj) (description : Option String) (infer_type : Bool) : Parameter :=
  let p : Parameter := ⟨name, kind, annot, default, description⟩
  if infer_type && !p.is_typed then {p with type := p.get_infered_type} else p

/-- Embedding of the legacy `InterfacyParameter.__infer_type`
(interfacy_core/interfacy_param.py): return without inferring when the
parameter is typed or required, or when the default is `None`; otherwise set
the type to the default's runtime type. -/
def interfacy_infer (p : Parameter) : Parameter :=
  if p.is_typed || p.default == Obj.empty then p
  else if p.default == Obj.pynone then p
  else {p with type := type_of p.default}

/-- A class member as `MethodFilter` sees it: its name, plus the attributes
`Method` computes from the live MRO (`is_static`, `is_classmethod`,
`is_inherited`), modelled as a snapshot taken at classification time. -/
structure Method where
  name : String
  is_static : Bool
  is_classmethod : Bool
  is_inherited : Bool
deriving DecidableEq, Repr

/-- Python `str.startswith`, modelled over the character sequence. -/
def py_startswith (s pre : String) : Bool :=
  pre.data.isPrefixOf s.data

/-- Python `str.endswith`, modelled over the character sequence. -/
def py_endswith (s suf : String) : Bool :=
  suf.data.reverse.isPrefixOf s.data.reverse

/-- Embedding of `Method.is_private` (method.py): the name starts with an
underscore but not with a double underscore. -/
def Method.is_private (m : Method) : Bool :=
  py_startswith m.name "_" && !(py_startswith m.name "__")

/-- Embedding of `Method.is_protected` (method.py): the name starts with an
underscore and does not end with a double underscore. -/
def Method.is_protected (m : Method) : Bool :=
  py_startswith m.name "_" && !(py_endswith m.name "__")

/-- Embedding of `Method.is_public` (method.py): neither private nor
protected. -/
def Method.is_public (m : Method) : Bool :=
  !m.is_private && !m.is_protected

/-- The seven boolean flags of `MethodFilter.__init__` (method.py).  The
Python parameter names `private` and `protected` are Lean keywords and are
rendered `priv` and `prot`. -/
structure FilterConfig where
  init : Bool
  public : Bool
  inherited : Bool
  static_methods : Bool
  prot : Bool
  priv : Bool
  classmethod : Bool
deriving DecidableEq, Repr

/-- Embedding of the `self.checks` list built by `MethodFilter.__init__`: one
exclusion predicate appended per disabled flag, in source order. -/
def MethodFilter.checks (c : FilterConfig) : List (Method → Bool) :=
  (if !c.init then [fun m => m.name == "__init__"] else [])
  ++ (if !c.static_methods then [fun m => m.is_static] else [])
  ++ (if !c.inherited then [fun m => m.is_inherited] else [])
  ++ (if !c.priv then [fun m => m.is_private] else [])
  ++ (if !c.prot then [fun m => m.is_protected] else [])
  ++ (if !c.public then [fun m => m.is_public] else [])
  ++ (if !c.classmethod then [fun m => m.is_classmethod] else [])

/-- Embedding of `MethodFilter.check`: a method passes iff no configured
exclusion predicate fires. -/
def MethodFilter.check (c : FilterConfig) (m : Method) : Bool :=
  (MethodFilter.checks c).all (fun f => !(f m))

/-- Embedding of `MethodFilter.extract`: keep the methods that pass. -/
def MethodFilter.extract (c : FilterConfig) (ms : List Method) : List Method :=
  ms.filter (fun m => MethodFilter.check c m)

/-- The default flags of `MethodFilter.__init__` itself (method.py lines
89-98): `protected`, `private` and `classmethod` disabled. -/
def method_filter_defaults : FilterConfig :=
  ⟨true, true, true, true, false, false, false⟩

/-- The flags `Class.__init__` passes to `MethodFilter` when its caller
supplies none (_class.py lines 49-83): like `method_filter_defaults` except
`classmethod=True`. -/
def class_default_filter : FilterConfig :=
  ⟨true, true, true, true, false, false, true⟩

/-- The pointwise order on filter configurations: every flag enabled in `A`
is enabled in `B`. -/
def FilterConfig.le (A B : FilterConfig) : Prop :=
  (A.init = true → B.init = true) ∧ (A.public = true → B.public = true)
  ∧ (A.inherited = true → B.inherited = true)
  ∧ (A.static_methods = true → B.static_methods = true)
  ∧ (A.prot = true → B.prot = true) ∧ (A.priv = true → B.priv = true)
  ∧ (A.classmethod = true → B.classmethod = true)

/-- The Python exceptions raised by the lookup helpers, named after the
spec's error taxonomy: `KeyError` is NotFound, `IndexError` is
IndexOutOfRange, `TypeError` is InvalidKeyType. -/
inductive LookupErr where
  | keyErr
  | indexErr
  | typeErr
deriving DecidableEq, Repr

/-- A lookup selector: a string name, an integer index, or a value of any
other type. -/
inductive Selector where
  | name (s : String)
  | index (i : Int)
  | other
deriving DecidableEq, Repr

/-- Python sequence indexing `xs[i]`: indices `0 ≤ i < n` select directly,
negative indices `-n ≤ i < 0` count from the end, and anything else raises
`IndexError`. -/
def py_list_get {α : Type} (l : List α) (i : Int) : Except LookupErr α :=
  if h : 0 ≤ i ∧ i < (l.length : Int) then
    .ok (l.get ⟨i.toNat, by omega⟩)
  else if h2 : i < 0 ∧ 0 ≤ i + (l.length : Int) then
    .ok (l.get ⟨(i + (l.length : Int)).toNat, by omega⟩)
  else .error .indexErr

/-- The shared shape of `Function.get_param` (function.py) and
`Class.get_method` (_class.py): `match` on the selector — a string selector
is a keyed map access (`KeyError` on miss), an integer selector indexes the
declaration-order list, and any other selector raises `TypeError`. -/
def lookup_by_selector {α : Type} (key : α → String) (xs : List α) :
    Selector → Except LookupErr α
  | .name s =>
    match xs.find? (fun x => key x == s) with
    | some x => .ok x
    | none => .error .keyErr
  | .index i => py_list_get xs i
  | .other => .error .typeErr

/-- Embedding of `Function.get_param`: string selectors hit the
`_parameters` dict, integer selectors index `params`, anything else raises
`TypeError`. -/
def get_param (ps : List Parameter) (sel : Selector) : Except LookupErr Parameter :=
  lookup_by_selector Parameter.name ps sel

/-- Embedding of `Class.get_method`: string selectors hit the `_methods`
dict, integer selectors index `methods`, anything else raises `TypeError`. -/
def get_method (ms : List Method) (sel : Selector) : Except LookupErr Method :=
  lookup_by_selector Method.name ms sel

/-- Embedding of the dict build at the end of `Function._get_parameters`:
`parameters[param.name] = param` on a Python dict keeps the original position
when the key already exists and appends otherwise. -/
def dict_insert (d : List Parameter) (p : Parameter) : List Parameter :=
  if d.any (fun q => q.name == p.name) then
    d.map (fun q => if q.name == p.name then p else q)
  else d ++ [p]

/-- Embedding of the final loop of `Function._get_parameters` (function.py
lines 88-93): walk the declared parameters in order, skip every parameter
literally named "self" when `skip_self` is set, and insert the rest into the
ordered dict. -/
def collect_parameters (skip_self : Bool) (params : List Parameter) : List Parameter :=
  params.foldl (fun d p => if p.name == "self" && skip_self then d else dict_insert d p) []

/-- The lifecycle state of a `Class` wrapper (_class.py): whether the wrapped
object was an already-constructed instance, whether it is callable, the
`is_initialized` flag, and the filtered method table in declaration order. -/
structure ClassState where
  received_instance : Bool
  cls_callable : Bool
  is_initialized : Bool
  methods : List Method
deriving DecidableEq, Repr

/-- Embedding of the lifecycle part of `Class.__init__`: wrapping an
already-constructed instance sets `is_initialized` immediately; wrapping a
class leaves it false.  A class object is always callable; an instance may or
may not be. -/
def mk_class_state (from_instance : Bool) (instance_callable : Bool)
    (ms : List Method) : ClassState :=
  { received_instance := from_instance
    cls_callable := if from_instance then instance_callable else true
    is_initialized := from_instance
    methods := ms }

/-- The exceptions raised by `Class.init` and `Class.call_method`, named
after the spec's taxonomy (`ValueError` already initialized, `TypeError`
cannot initialize, `ValueError` not initialized, plus propagated lookup
errors). -/
inductive ClassErr where
  | alreadyInitialized
  | cannotInitialize
  | notInitialized
  | lookup (e : LookupErr)
deriving DecidableEq, Repr

/-- Embedding of `Class.init` (_class.py lines 115-129): raise when already
initialized; otherwise, when the wrapped object is callable, construct the
instance and flip the flag; otherwise raise `TypeError`. -/
def class_init (s : ClassState) : Except ClassErr ClassState :=
  if s.is_initialized then .error .alreadyInitialized
  else if s.cls_callable then .ok {s with is_initialized := true}
  else .error .cannotInitialize

/-- The observable outcome of `Class.call_method`: which resolved method is
invoked and whether the stored instance is passed explicitly as the receiver
(done exactly when the wrapper was built from a bare class). -/
structure CallOutcome where
  method : Method
  passes_instance : Bool
deriving DecidableEq, Repr

/-- Embedding of `Class.call_method` (_class.py lines 131-151): resolve the
member via `get_method`, raise when the class is uninitialized and the member
is not static, otherwise invoke it. -/
def class_call_method (s : ClassState) (sel : Selector) : Except ClassErr CallOutcome :=
  match get_method s.methods sel with
  | .error e => .error (.lookup e)
  | .ok m =>
    if !s.is_initialized && !m.is_static then .error .notInitialized
    else .ok ⟨m, !s.received_instance⟩

/-- Invariant of every reachable `ClassState`: while uninitialized, the
wrapped object is a bare class and hence callable. -/
def ClassInv (s : ClassState) : Prop :=
  s.is_initialized = false → s.cls_callable = true

/-- Two-parameter example list used by concrete lookup statements: the
signature of `f(a, b=None)`. -/
def params_example : List Parameter :=
  [⟨"a", ParameterKind.POSITIONAL_OR_KEYWORD, Obj.empty, Obj.empty, none⟩,
   ⟨"b", ParameterKind.POSITIONAL_OR_KEYWORD, Obj.empty, Obj.pynone, none⟩]

/-- Two-parameter example whose first parameter is named "self". -/
def self_params_example : List Parameter :=
  [⟨"self", ParameterKind.POSITIONAL_OR_KEYWORD, Obj.empty, Obj.empty, none⟩,
   ⟨"a", ParameterKind.POSITIONAL_OR_KEYWORD, Obj.empty, Obj.empty, none⟩]

theorem contains_literal_any_eq_false {args : List Ty}
    (h : contains_literal_any args = false) :
    ∀ a ∈ args, is_or_contains_literal a = false := by
  induction args with
  | nil => intro a ha; cases ha
  | cons b rest ih =>
    intro a ha
    rw [contains_literal_any] at h
    rcases Bool.or_eq_false_iff.mp h with ⟨h1, h2⟩
    rcases List.mem_cons.mp ha with rfl | ha'
    · exact h1
    · exact ih h2 a ha'

theorem enum_member_names_of_not_enum {a : Ty} (h : is_enum a = false) :
    enum_member_names a = [] := by
  cases a <;> simp [is_enum] at h ⊢ <;> rfl

theorem union_choices_loop_no_literal (args : List Ty)
    (h : contains_literal_any args = false) :
    union_choices_loop args
      = .ok (List.flatten (args.map (fun b => (enum_member_names b).map Val.vStr))) := by
  induction args with
  | nil => rfl
  | cons a rest ih =>
    rw [contains_literal_any] at h
    rcases Bool.or_eq_false_iff.mp h with ⟨h1, h2⟩
    by_cases henum : is_enum a = true
    · obtain ⟨n, ms, rfl⟩ : ∃ n ms, a = Ty.enum n ms := by
        cases a <;> simp [is_enum] at henum ⊢
      rw [union_choices_loop]
      simp [is_enum, get_enum_choices, ih h2, enum_member_names]
    · rw [union_choices_loop]
      rw [if_neg henum, if_neg (by simp [h1])]
      rw [ih h2]
      simp [enum_member_names_of_not_enum (Bool.eq_false_iff.mpr henum)]

/-- C1 — counterexample.  The claim states `get_choices` matches the spec's
reference definition on every annotation.  It fails: on a union of two
literals the code returns only the first literal's values; on a union of two
enums sharing a member name the code keeps the duplicate; on a generic
containing a literal the code returns the literal's values instead of none;
on a union containing a literal only below a generic the code raises
`ValueError` while the reference returns an empty tuple. -/
theorem get_choices_deviates_from_spec_reference :
    get_choices (Ty.union [Ty.literal [Val.vStr "a"], Ty.literal [Val.vStr "b"]])
        ≠ Except.ok (get_choices_spec
          (Ty.union [Ty.literal [Val.vStr "a"], Ty.literal [Val.vStr "b"]]))
    ∧ get_choices (Ty.union [Ty.literal [Val.vStr "a"], Ty.literal [Val.vStr "b"]])
        = .ok (some [Val.vStr "a"])
    ∧ get_choices_spec (Ty.union [Ty.literal [Val.vStr "a"], Ty.literal [Val.vStr "b"]])
        = some [Val.vStr "a", Val.vStr "b"]
    ∧ get_choices (Ty.union [Ty.enum "E1" ["X"], Ty.enum "E2" ["X"]])
        = .ok (some [Val.vStr "X", Val.vStr "X"])
    ∧ get_choices_spec (Ty.union [Ty.enum "E1" ["X"], Ty.enum "E2" ["X"]])
        = some [Val.vStr "X"]
    ∧ get_choices (Ty.generic "list" [Ty.literal [Val.vInt 1]]) = .ok (some [Val.vInt 1])
    ∧ get_choices_spec (Ty.generic "list" [Ty.literal [Val.vInt 1]]) = none
    ∧ get_choices (Ty.union [Ty.plain "int", Ty.generic "list" [Ty.literal [Val.vInt 1]]])
        = .error "not a literal"
    ∧ get_choices_spec (Ty.union [Ty.plain "int", Ty.generic "list" [Ty.literal [Val.vInt 1]]])
        = some [] := by
  refine ⟨?_, rfl, rfl, rfl, rfl, rfl, rfl, rfl, rfl⟩
  intro h
  injection h with h1
  injection h1 with h2
  injection h2 with h3 h4
  injection h4

/-- C1 — amended claim, proved: `get_choices` matches the amended reference
definition (first-literal-only behaviour on anything containing a literal,
possible `ValueError`, enum-names-only concatenation with duplicates on
literal-free unions, none otherwise) on every annotation. -/
theorem get_choices_eq_amended_reference (t : Ty) :
    get_choices t = get_choices_amended t := by
  cases t with
  | plain n => rfl
  | literalMarker => rfl
  | lit v => rfl
  | literal vs => rfl
  | enum n ms => rfl
  | generic o args =>
    by_cases h : is_or_contains_literal (Ty.generic o args) = true
    · simp [get_choices, get_choices_amended, h, get_literal_choices]
    · rw [Bool.not_eq_true] at h
      simp [get_choices, get_choices_amended, h, is_enum, is_union_type]
  | union args =>
    by_cases h : is_or_contains_literal (Ty.union args) = true
    · simp [get_choices, get_choices_amended, h, get_literal_choices]
    · rw [Bool.not_eq_true] at h
      have h' : contains_literal_any args = false := h
      simp [get_choices, get_choices_amended, h, is_enum, is_union_type, get_args,
        union_choices_loop_no_literal args h']

mutual
theorem flatten_no_union : ∀ (t : Ty), ∀ a ∈ _flatten_union_args t, is_union_type a = false
  | .union args => by
      intro a ha
      exact flatten_loop_no_union args a ha
  | .generic o args => by
      intro a ha
      exact flatten_loop_no_union args a ha
  | .literal vs => by
      intro a ha
      simp [_flatten_union_args] at ha
      obtain ⟨v, _, rfl⟩ := ha
      rfl
  | .plain n => by intro a ha; simp [_flatten_union_args] at ha
  | .literalMarker => by intro a ha; simp [_flatten_union_args] at ha
  | .enum n ms => by intro a ha; simp [_flatten_union_args] at ha
  | .lit v => by intro a ha; simp [_flatten_union_args] at ha

theorem flatten_loop_no_union : ∀ (l : List Ty), ∀ a ∈ flatten_args_loop l, is_union_type a = false
  | [] => by intro a ha; simp [flatten_args_loop] at ha
  | b :: rest => by
      intro a ha
      rw [flatten_args_loop] at ha
      rcases List.mem_append.mp ha with h1 | h2
      · by_cases hb : is_union_type b = true
        · rw [if_pos hb] at h1
          exact flatten_no_union b a h1
        · rw [if_neg hb] at h1
          rcases List.mem_singleton.mp h1 with rfl
          exact Bool.eq_false_iff.mpr hb
      · exact flatten_loop_no_union rest a h2
end

theorem flatten_args_loop_of_no_union (l : List Ty)
    (h : ∀ a ∈ l, is_union_type a = false) : flatten_args_loop l = l := by
  induction l with
  | nil => rfl
  | cons a rest ih =>
    rw [flatten_args_loop]
    rw [if_neg (by simp [h a (List.mem_cons_self a rest)])]
    rw [ih (fun b hb => h b (List.mem_cons_of_mem a hb))]
    rfl

/-- C7: `_flatten_union_args` always produces a list none of whose members is
itself a union, flattening an already-flattened union returns it unchanged
(idempotence), and on any union as CPython constructs one (arguments already
flat and duplicate-free) the result is exactly the argument list, in order
and without duplicates. -/
theorem flatten_union_properties (t : Ty) :
    (∀ a ∈ _flatten_union_args t, is_union_type a = false)
    ∧ _flatten_union_args (Ty.union (_flatten_union_args t)) = _flatten_union_args t
    ∧ (∀ args, t = Ty.union args → python_wf_union_args args →
        _flatten_union_args t = args ∧ (_flatten_union_args t).Nodup) := by
  refine ⟨flatten_no_union t, ?_, ?_⟩
  · show flatten_args_loop (_flatten_union_args t) = _flatten_union_args t
    exact flatten_args_loop_of_no_union _ (flatten_no_union t)
  · rintro args rfl ⟨hlen, hnu, hnd⟩
    have he : _flatten_union_args (Ty.union args) = args := by
      show flatten_args_loop args = args
      exact flatten_args_loop_of_no_union args hnu
    exact ⟨he, by rw [he]; exact hnd⟩

/-- Witness for C7 at the concrete union `int | str`. -/
theorem flatten_union_properties_witness :
    python_wf_union_args [Ty.plain "int", Ty.plain "str"]
    ∧ _flatten_union_args (Ty.union [Ty.plain "int", Ty.plain "str"])
        = [Ty.plain "int", Ty.plain "str"]
    ∧ (_flatten_union_args (Ty.union [Ty.plain "int", Ty.plain "str"])).Nodup := by
  have hwf : python_wf_union_args [Ty.plain "int", Ty.plain "str"] := by
    refine ⟨by decide, ?_, ?_⟩
    · intro a ha
      rcases List.mem_cons.mp ha with rfl | ha'
      · rfl
      · rcases List.mem_singleton.mp ha' with rfl
        rfl
    · refine List.nodup_cons.mpr ⟨?_, List.nodup_singleton _⟩
      intro hmem
      have h := List.mem_singleton.mp hmem
      have h' : "int" = "str" := by injection h
      exact absurd h' (by decide)
  have hres := (flatten_union_properties (Ty.union [Ty.plain "int", Ty.plain "str"])).2.2
      [Ty.plain "int", Ty.plain "str"] rfl hwf
  exact ⟨hwf, hres.1, hres.2⟩

/-- C2 — counterexample: a parameter built with no annotation and default
`None` does not stay untyped; `Parameter.get_infered_type` returns
`type(None)`, so the constructed parameter's type is `NoneType`, not the
`EMPTY` marker.  (The repository's own test test_function.py asserts exactly
this behaviour.) -/
theorem none_default_infers_nonetype_counterexample :
    (mk_parameter "b" ParameterKind.POSITIONAL_OR_KEYWORD Obj.empty Obj.pynone none true).type
      = Obj.typeObj "NoneType"
    ∧ (mk_parameter "b" ParameterKind.POSITIONAL_OR_KEYWORD Obj.empty Obj.pynone none true).type
      ≠ Obj.empty :=
  ⟨rfl, by decide⟩

/-- C2 — amended claim, proved: with no explicit annotation and default
`None`, the current `Parameter.__init__` (objinspect/parameter.py) infers the
type `NoneType`; only the legacy `InterfacyParameter.__infer_type`
(interfacy_core/interfacy_param.py) left such a parameter untyped. -/
theorem none_default_parameter_type_is_nonetype (name : String) (kind : ParameterKind)
    (descr : Option String) :
    (mk_parameter name kind Obj.empty Obj.pynone descr true).type = Obj.typeObj "NoneType"
    ∧ (interfacy_infer ⟨name, kind, Obj.empty, Obj.pynone, descr⟩).type = Obj.empty :=
  ⟨rfl, rfl⟩

/-- C3: a parameter constructed with no explicit annotation and a default
that is present (not `EMPTY`) and not `None` gets, at construction, the
runtime type of that default as its type.  The inference is performed by the
constructor itself, once (see `mk_parameter`). -/
theorem untyped_param_with_default_infers_runtime_type (name : String)
    (kind : ParameterKind) (d : Obj) (descr : Option String)
    (h1 : d ≠ Obj.empty) (_h2 : d ≠ Obj.pynone) :
    (mk_parameter name kind Obj.empty d descr true).type = type_of d := by
  simp [mk_parameter, Parameter.is_typed, Parameter.get_infered_type, h1]

/-- Witness for C3: `f(c: no annotation = 4)` gets type `int`. -/
theorem untyped_param_with_default_infers_runtime_type_witness :
    Obj.int 4 ≠ Obj.empty ∧ Obj.int 4 ≠ Obj.pynone
    ∧ (mk_parameter "c" ParameterKind.POSITIONAL_OR_KEYWORD Obj.empty (Obj.int 4)
        none true).type = Obj.typeObj "int" :=
  ⟨by decide, by decide,
    untyped_param_with_default_infers_runtime_type "c" ParameterKind.POSITIONAL_OR_KEYWORD
      (Obj.int 4) none (by decide) (by decide)⟩

/-- C4 — counterexample: the name `_x` (a single leading underscore, no
trailing double underscore) satisfies `is_private` and `is_protected`
simultaneously, so the three visibility predicates are not mutually
exclusive; moreover `is_private` holds although `_x` does not begin with a
private-name-mangling prefix such as `_Cls__`. -/
theorem visibility_not_exclusive_counterexample :
    Method.is_private ⟨"_x", false, false, false⟩ = true
    ∧ Method.is_protected ⟨"_x", false, false, false⟩ = true
    ∧ Method.is_public ⟨"_x", false, false, false⟩ = false
    ∧ py_startswith "_x" "_Cls__" = false := by
  decide

/-- C4 — amended claim, proved: visibility is determined by the name alone —
`is_private` iff the name begins with a single underscore (not a double one),
`is_protected` iff it begins with an underscore and does not end with a
double underscore, and `is_public` iff the name does not begin with an
underscore or is dunder-style; `is_public` holds exactly when neither
`is_private` nor `is_protected` does, but `is_private` and `is_protected`
overlap: every private name is protected unless it ends with a double
underscore. -/
theorem visibility_characterization (m : Method) :
    m.is_public
      = (!(py_startswith m.name "_") || (py_startswith m.name "__" && py_endswith m.name "__"))
    ∧ (m.is_public = true ↔ (m.is_private = false ∧ m.is_protected = false))
    ∧ (m.is_private = true → (m.is_protected = true ∨ py_endswith m.name "__" = true)) := by
  obtain ⟨nm, st, cm, ih⟩ := m
  simp only [Method.is_public, Method.is_private, Method.is_protected]
  cases h1 : py_startswith nm "_" <;> cases h2 : py_startswith nm "__" <;>
    cases h3 : py_endswith nm "__" <;> simp [h1, h2, h3]

/-- Witness for C4 at the member named "_x", which is private, hence (not
ending in a double underscore) also protected. -/
theorem visibility_characterization_witness :
    Method.is_private ⟨"_x", false, false, false⟩ = true
    ∧ (Method.is_protected ⟨"_x", false, false, false⟩ = true
        ∨ py_endswith "_x" "__" = true) :=
  ⟨by decide, (visibility_characterization ⟨"_x", false, false, false⟩).2.2 (by decide)⟩

/-- C5 — counterexample: `Class.__init__` passes `classmethod=True` when its
caller supplies no flags, so under the default Class configuration a
classmethod member (here named "make") is included, contradicting the claim
that classmethod members are excluded by default; `MethodFilter`'s own
defaults do exclude it. -/
theorem class_default_includes_classmethods :
    MethodFilter.check class_default_filter ⟨"make", false, true, false⟩ = true
    ∧ (⟨"make", false, true, false⟩ : Method).is_classmethod = true
    ∧ MethodFilter.check method_filter_defaults ⟨"make", false, true, false⟩ = false := by
  decide

/-- C5 — amended claim, proved: under the flags `Class.__init__` passes by
default the included members are exactly those that are neither private nor
protected (classmethods are included); under `MethodFilter.__init__`'s own
defaults the included members are exactly those that are neither private nor
protected nor classmethods. -/
theorem default_filter_characterization (m : Method) :
    MethodFilter.check class_default_filter m = (!m.is_private && !m.is_protected)
    ∧ MethodFilter.check method_filter_defaults m
        = (!m.is_private && !m.is_protected && !m.is_classmethod) := by
  constructor <;>
    simp [MethodFilter.check, MethodFilter.checks, method_filter_defaults,
      class_default_filter, Bool.and_assoc]

theorem check_eq (c : FilterConfig) (m : Method) :
    MethodFilter.check c m =
      ((c.init || !(m.name == "__init__")) && (c.static_methods || !m.is_static)
        && (c.inherited || !m.is_inherited) && (c.priv || !m.is_private)
        && (c.prot || !m.is_protected) && (c.public || !m.is_public)
        && (c.classmethod || !m.is_classmethod)) := by
  obtain ⟨i, pu, ih, st, pr, pv, cm⟩ := c
  cases i <;> cases pu <;> cases ih <;> cases st <;> cases pr <;> cases pv <;> cases cm <;>
    simp [MethodFilter.check, MethodFilter.checks, Bool.and_assoc]

theorem or_flag_mono {a b y : Bool} (h : a = true → b = true) (hy : (a || y) = true) :
    (b || y) = true := by
  cases ha : a
  · rw [ha] at hy
    simp only [Bool.false_or] at hy
    simp [hy]
  · simp [h ha]

/-- C6: filtering is monotonic — if every flag enabled in configuration A is
enabled in B then every member included under A is included under B — and a
member is included iff it matches none of the exclusion predicates installed
for the disabled flags. -/
theorem method_filter_monotone (A B : FilterConfig) (hAB : FilterConfig.le A B)
    (ms : List Method) :
    (∀ m ∈ MethodFilter.extract A ms, m ∈ MethodFilter.extract B ms)
    ∧ (∀ m, MethodFilter.check A m = true ↔ ∀ f ∈ MethodFilter.checks A, f m = false) := by
  obtain ⟨h1, h2, h3, h4, h5, h6, h7⟩ := hAB
  constructor
  · intro m hm
    rw [MethodFilter.extract, List.mem_filter] at hm ⊢
    refine ⟨hm.1, ?_⟩
    have hA := hm.2
    rw [check_eq] at hA ⊢
    simp only [Bool.and_eq_true] at hA ⊢
    obtain ⟨⟨⟨⟨⟨⟨a1, a2⟩, a3⟩, a4⟩, a5⟩, a6⟩, a7⟩ := hA
    exact ⟨⟨⟨⟨⟨⟨or_flag_mono h1 a1, or_flag_mono h4 a2⟩, or_flag_mono h3 a3⟩,
      or_flag_mono h6 a4⟩, or_flag_mono h5 a5⟩, or_flag_mono h2 a6⟩, or_flag_mono h7 a7⟩
  · intro m
    simp only [MethodFilter.check, List.all_eq_true, Bool.not_eq_true']

/-- Witness for C6: the MethodFilter defaults are pointwise below the Class
defaults, and extraction of a one-classmethod list is accordingly monotone. -/
theorem method_filter_monotone_witness :
    FilterConfig.le method_filter_defaults class_default_filter
    ∧ (∀ m ∈ MethodFilter.extract method_filter_defaults [⟨"make", false, true, false⟩],
        m ∈ MethodFilter.extract class_default_filter [⟨"make", false, true, false⟩]) :=
  ⟨⟨fun h => h, fun h => h, fun h => h, fun h => h, fun h => h, fun h => h, fun _ => rfl⟩,
   (method_filter_monotone method_filter_defaults class_default_filter
      ⟨fun h => h, fun h => h, fun h => h, fun h => h, fun h => h, fun h => h, fun _ => rfl⟩
      [⟨"make", false, true, false⟩]).1⟩

/-- C8: on every state satisfying the reachability invariant, `Class.init`
fails with AlreadyInitialized exactly when the flag is already set (in
particular always on a wrapper built from an already-constructed instance),
otherwise constructs the instance and flips the flag false→true exactly once
(re-running it fails); `Class.call_method` on a resolved member fails with
NotInitialized exactly when the member is non-static and the flag is false,
and otherwise invokes the member. -/
theorem class_lifecycle_guards (s : ClassState) (hs : ClassInv s) :
    (class_init s = .error .alreadyInitialized ↔ s.is_initialized = true)
    ∧ (∀ ic ms, class_init (mk_class_state true ic ms) = .error .alreadyInitialized)
    ∧ (s.is_initialized = false →
        class_init s = .ok {s with is_initialized := true}
        ∧ class_init {s with is_initialized := true} = .error .alreadyInitialized)
    ∧ (∀ sel m, get_method s.methods sel = .ok m →
        (class_call_method s sel = .error .notInitialized
            ↔ (m.is_static = false ∧ s.is_initialized = false))
        ∧ ((m.is_static = true ∨ s.is_initialized = true) →
            class_call_method s sel = .ok ⟨m, !s.received_instance⟩)) := by
  refine ⟨?_, ?_, ?_, ?_⟩
  · cases h : s.is_initialized
    · simp [class_init, h, hs h]
    · simp [class_init, h]
  · intro ic ms
    rfl
  · intro h
    refine ⟨?_, ?_⟩
    · simp [class_init, h, hs h]
    · simp [class_init]
  · intro sel m hm
    refine ⟨?_, ?_⟩
    · rw [class_call_method, hm]
      cases hi : s.is_initialized <;> cases hst : m.is_static <;> simp [hi, hst]
    · intro hor
      rw [class_call_method, hm]
      rcases hor with hst | hi
      · simp [hst]
      · simp [hi]

/-- Witness for C8 on a concrete wrapper of a bare class with one non-static
method: init succeeds, and calling the method before init is rejected. -/
theorem class_lifecycle_guards_witness :
    ClassInv (mk_class_state false true [⟨"method_1", false, false, false⟩])
    ∧ class_init (mk_class_state false true [⟨"method_1", false, false, false⟩])
        = .ok {mk_class_state false true [⟨"method_1", false, false, false⟩] with
            is_initialized := true}
    ∧ (class_call_method (mk_class_state false true [⟨"method_1", false, false, false⟩])
          (Selector.name "method_1") = .error .notInitialized
        ↔ ((⟨"method_1", false, false, false⟩ : Method).is_static = false
            ∧ (mk_class_state false true
                [⟨"method_1", false, false, false⟩]).is_initialized = false)) := by
  have hInv : ClassInv (mk_class_state false true [⟨"method_1", false, false, false⟩]) :=
    fun _ => rfl
  have hmain := class_lifecycle_guards
    (mk_class_state false true [⟨"method_1", false, false, false⟩]) hInv
  refine ⟨hInv, (hmain.2.2.1 rfl).1, ?_⟩
  exact (hmain.2.2.2 (Selector.name "method_1") ⟨"method_1", false, false, false⟩ rfl).1

/-- C9 — counterexample: a negative integer index is outside the
declaration-order range 0..n-1, yet `get_param` succeeds on it — Python
sequence indexing counts negative indices from the end — contradicting the
claim that every index outside the declaration-order range fails with
IndexOutOfRange. -/
theorem negative_index_lookup_counterexample :
    get_param params_example (Selector.index (-1))
      = .ok ⟨"b", ParameterKind.POSITIONAL_OR_KEYWORD, Obj.empty, Obj.pynone, none⟩
    ∧ ¬(0 ≤ (-1 : Int) ∧ (-1 : Int) < (params_example.length : Int))
    ∧ get_param params_example (Selector.index (-1)) ≠ .error LookupErr.indexErr := by
  refine ⟨rfl, by decide, ?_⟩
  intro h
  injection h

theorem lookup_by_selector_spec {α : Type} (key : α → String) (xs : List α) :
    (∀ s x, lookup_by_selector key xs (.name s) = .ok x → key x = s ∧ x ∈ xs)
    ∧ (∀ s, (∀ x ∈ xs, key x ≠ s) → lookup_by_selector key xs (.name s) = .error .keyErr)
    ∧ (∀ i : Int, ((xs.length : Int) ≤ i ∨ i < -(xs.length : Int)) →
        lookup_by_selector key xs (.index i) = .error .indexErr)
    ∧ (∀ i : Int, 0 ≤ i → i < (xs.length : Int) →
        ∃ hlt : i.toNat < xs.length,
          lookup_by_selector key xs (.index i) = .ok (xs.get ⟨i.toNat, hlt⟩))
    ∧ (∀ i : Int, -(xs.length : Int) ≤ i → i < 0 →
        ∃ hlt : (i + (xs.length : Int)).toNat < xs.length,
          lookup_by_selector key xs (.index i)
            = .ok (xs.get ⟨(i + (xs.length : Int)).toNat, hlt⟩))
    ∧ lookup_by_selector key xs .other = .error .typeErr := by
  refine ⟨?_, ?_, ?_, ?_, ?_, rfl⟩
  · intro s x h
    rw [lookup_by_selector] at h
    cases hf : xs.find? (fun y => key y == s) with
    | none => rw [hf] at h; cases h
    | some y =>
      rw [hf] at h
      injection h with hyx
      subst hyx
      exact ⟨by simpa using List.find?_some hf, List.mem_of_find?_eq_some hf⟩
  · intro s hmiss
    rw [lookup_by_selector]
    rw [List.find?_eq_none.mpr (fun x hx => by simpa using hmiss x hx)]
  · intro i hi
    rw [lookup_by_selector, py_list_get]
    rw [dif_neg (by omega), dif_neg (by omega)]
  · intro i h0 hlt
    refine ⟨by omega, ?_⟩
    rw [lookup_by_selector, py_list_get]
    rw [dif_pos ⟨h0, hlt⟩]
  · intro i hge hlt
    refine ⟨by omega, ?_⟩
    rw [lookup_by_selector, py_list_get]
    rw [dif_neg (by omega), dif_pos ⟨hlt, by omega⟩]

/-- C9 — amended claim, proved: lookup of a parameter or member follows the
error taxonomy with Python sequence-index semantics — a string name with no
match fails with NotFound (KeyError), an integer index fails with
IndexOutOfRange (IndexError) exactly when it is at or beyond the length or
below minus the length, while indices in `-n ≤ i < n` succeed (negative
indices count from the end), and a selector that is neither a string nor an
integer fails with InvalidKeyType (TypeError); a valid selector returns the
matching entry. -/
theorem lookup_error_taxonomy (ps : List Parameter) (ms : List Method) :
    ((∀ s p, get_param ps (.name s) = .ok p → p.name = s ∧ p ∈ ps)
      ∧ (∀ s, (∀ p ∈ ps, p.name ≠ s) → get_param ps (.name s) = .error .keyErr)
      ∧ (∀ i : Int, ((ps.length : Int) ≤ i ∨ i < -(ps.length : Int)) →
          get_param ps (.index i) = .error .indexErr)
      ∧ (∀ i : Int, 0 ≤ i → i < (ps.length : Int) →
          ∃ hlt : i.toNat < ps.length,
            get_param ps (.index i) = .ok (ps.get ⟨i.toNat, hlt⟩))
      ∧ (∀ i : Int, -(ps.length : Int) ≤ i → i < 0 →
          ∃ hlt : (i + (ps.length : Int)).toNat < ps.length,
            get_param ps (.index i) = .ok (ps.get ⟨(i + (ps.length : Int)).toNat, hlt⟩))
      ∧ get_param ps .other = .error .typeErr)
    ∧ ((∀ s m, get_method ms (.name s) = .ok m → m.name = s ∧ m ∈ ms)
      ∧ (∀ s, (∀ m ∈ ms, m.name ≠ s) → get_method ms (.name s) = .error .keyErr)
      ∧ (∀ i : Int, ((ms.length : Int) ≤ i ∨ i < -(ms.length : Int)) →
          get_method ms (.index i) = .error .indexErr)
      ∧ (∀ i : Int, 0 ≤ i → i < (ms.length : Int) →
          ∃ hlt : i.toNat < ms.length,
            get_method ms (.index i) = .ok (ms.get ⟨i.toNat, hlt⟩))
      ∧ (∀ i : Int, -(ms.length : Int) ≤ i → i < 0 →
          ∃ hlt : (i + (ms.length : Int)).toNat < ms.length,
            get_method ms (.index i) = .ok (ms.get ⟨(i + (ms.length : Int)).toNat, hlt⟩))
      ∧ get_method ms .other = .error .typeErr) :=
  ⟨lookup_by_selector_spec Parameter.name ps, lookup_by_selector_spec Method.name ms⟩

/-- Witness for C9 on the two-parameter example and a one-method list. -/
theorem lookup_error_taxonomy_witness :
    (∀ p ∈ params_example, p.name ≠ "z")
    ∧ get_param params_example (Selector.name "z") = .error .keyErr
    ∧ get_param params_example (Selector.index 5) = .error .indexErr
    ∧ get_method [⟨"method_1", false, false, false⟩] Selector.other = .error .typeErr := by
  have hz : ∀ p ∈ params_example, p.name ≠ "z" := by
    intro p hp
    rcases List.mem_cons.mp hp with rfl | hp'
    · decide
    · rcases List.mem_singleton.mp hp' with rfl
      decide
  have h := lookup_error_taxonomy params_example [⟨"method_1", false, false, false⟩]
  exact ⟨hz, h.1.2.1 "z" hz, h.1.2.2.1 5 (Or.inl (by decide)), h.2.2.2.2.2.2⟩

theorem collect_go (skip : Bool) :
    ∀ (params d : List Parameter),
      (∀ p ∈ params, ∀ q ∈ d, q.name ≠ p.name) →
      (params.map Parameter.name).Nodup →
      params.foldl (fun d p => if p.name == "self" && skip then d else dict_insert d p) d
        = d ++ params.filter (fun p => !(p.name == "self" && skip)) := by
  intro params
  induction params with
  | nil => intro d _ _; simp
  | cons p rest ih =>
    intro d hd hnd
    rw [List.foldl_cons]
    rw [List.map_cons, List.nodup_cons] at hnd
    by_cases hskip : (p.name == "self" && skip) = true
    · rw [if_pos hskip, List.filter_cons_of_neg (by simp [hskip])]
      exact ih d (fun r hr q hq => hd r (List.mem_cons_of_mem p hr) q hq) hnd.2
    · rw [if_neg hskip]
      have hins : dict_insert d p = d ++ [p] := by
        rw [dict_insert, if_neg]
        simp only [List.any_eq_true, not_exists, not_and, Bool.not_eq_true]
        intro q hq
        simp [hd p (List.mem_cons_self p rest) q hq]
      rw [hins]
      rw [ih (d ++ [p]) ?_ hnd.2]
      · rw [List.filter_cons_of_pos (by simp [hskip]), List.append_assoc]
        rfl
      · intro r hr q hq
        rcases List.mem_append.mp hq with hqd | hqp
        · exact hd r (List.mem_cons_of_mem p hr) q hqd
        · rcases List.mem_singleton.mp hqp with rfl
          intro hc
          exact hnd.1 (hc ▸ List.mem_map_of_mem Parameter.name hr)

/-- C10: when the parameter names are distinct (as Python signatures
guarantee), `Function._get_parameters` with skip-self enabled removes exactly
the parameters literally named "self" — regardless of position — keeping all
others in declaration order, and with skip-self disabled it removes
nothing. -/
theorem skip_self_filters_by_name (params : List Parameter)
    (h : (params.map Parameter.name).Nodup) :
    collect_parameters true params = params.filter (fun p => !(p.name == "self"))
    ∧ collect_parameters false params = params := by
  constructor
  · have hgo := collect_go true params [] (by intro p hp q hq; cases hq) h
    simpa [collect_parameters] using hgo
  · have hgo := collect_go false params [] (by intro p hp q hq; cases hq) h
    simpa [collect_parameters] using hgo

/-- Witness for C10: `method(self, a)` keeps only `a` with skip-self on and
both parameters with it off. -/
theorem skip_self_filters_by_name_witness :
    (self_params_example.map Parameter.name).Nodup
    ∧ collect_parameters true self_params_example
        = [⟨"a", ParameterKind.POSITIONAL_OR_KEYWORD, Obj.empty, Obj.empty, none⟩]
    ∧ collect_parameters false self_params_example = self_params_example := by
  have hnd : (self_params_example.map Parameter.name).Nodup := by decide
  have h := skip_self_filters_by_name self_params_example hnd
  exact ⟨hnd, h.1, h.2⟩

end Objinspect
